import Mathlib

/-!
Verification of the portfolio accounting engine of QuantInvestStrats
(`qis/portfolio/portfolio_data.py`), shallowly embedded over ℚ.
Machine floats of the source are modelled as exact rationals; the
`1e-16` trade-classification threshold is the rational `1 / 10 ^ 16`.
-/

namespace QIS

/-- The `1e-16` absolute threshold used by `compute_realized_pnl` to
distinguish true trades from floating-point noise. -/
def eps : ℚ := 1 / 10 ^ 16

/-- The classifier `is_purchase = np.greater(delta, 1e-16)` of
`compute_realized_pnl`. -/
def is_purchase (delta : ℚ) : Bool := decide (eps < delta)

/-- The classifier `is_sell = np.less(delta, -1e-16)` of
`compute_realized_pnl`. -/
def is_sell (delta : ℚ) : Bool := decide (delta < -eps)

/-- The `avg_costs` array of `compute_realized_pnl`, per instrument:
`avg_costs[0] = price[0] if units[0] > 1e-16 else 0`; for `t+1`,
if `is_purchase` then `(delta*price1 + unit0*avg_costs0) / unit1`
else carried forward. -/
def avg_costs (p u : ℕ → ℚ) : ℕ → ℚ
  | 0 => if is_purchase (u 0) then p 0 else 0
  | t + 1 =>
      let delta := u (t + 1) - u t
      if is_purchase delta then
        (delta * p (t + 1) + u t * avg_costs p u t) / u (t + 1)
      else
        avg_costs p u t

/-- The `realized_pnl` array of `compute_realized_pnl`:
`0` at `t = 0` (array initialized with zeros); for `t+1`,
`np.where(is_sell, -delta * (price1 - avg_costs0), 0.0)`. -/
def realized_pnl (p u : ℕ → ℚ) : ℕ → ℚ
  | 0 => 0
  | t + 1 =>
      let delta := u (t + 1) - u t
      if is_sell delta then -delta * (p (t + 1) - avg_costs p u t) else 0

/-- The `mtm_pnl` array of `compute_realized_pnl`:
`0` at `t = 0`; for `t+1`, `unit0 * (price1 - avg_costs0) - realized_pnl[t+1]`. -/
def mtm_pnl (p u : ℕ → ℚ) : ℕ → ℚ
  | 0 => 0
  | t + 1 => u t * (p (t + 1) - avg_costs p u t) - realized_pnl p u (t + 1)

/-- The `trades` array of `compute_realized_pnl`:
`0` at `t = 0`; for `t+1`, `delta = unit1 - unit0`. -/
def trades (u : ℕ → ℚ) : ℕ → ℚ
  | 0 => 0
  | t + 1 => u (t + 1) - u t

/-- The full 4-tuple returned by `compute_realized_pnl`. -/
def compute_realized_pnl (p u : ℕ → ℚ) :
    (ℕ → ℚ) × (ℕ → ℚ) × (ℕ → ℚ) × (ℕ → ℚ) :=
  (avg_costs p u, realized_pnl p u, mtm_pnl p u, trades u)

/-- A trade delta that is either exactly zero or a true trade beyond the
noise threshold (no delta strictly inside `(0, ε]` or `[-ε, 0)`). -/
def trade_classified (d : ℚ) : Prop := d = 0 ∨ eps < d ∨ d < -eps

/-- The units path of the spec's fully-closed scenario:
`units = [0, 10, 10, 5, 0]` (and flat at `0` afterwards). -/
def uC3 : ℕ → ℚ
  | 0 => 0
  | 1 => 10
  | 2 => 10
  | 3 => 5
  | _ + 4 => 0

/-- The price path of the spec's fully-closed scenario:
`prices = [10, 10, 12, 12, 15]` (and flat at `15` afterwards). -/
def pC3 : ℕ → ℚ
  | 0 => 10
  | 1 => 10
  | 2 => 12
  | 3 => 12
  | _ + 4 => 15

/-- A `[time × instrument]` matrix of exact values. -/
abbrev MatQ := ℕ → ℕ → ℚ

/-- A `[time × instrument]` matrix with missing (`NaN`) entries. -/
abbrev MatO := ℕ → ℕ → Option ℚ

/-- Embeds `df.pct_change(fill_method=None)`: relative change on each column,
missing at the first row. -/
def df_pct_change (m : MatQ) : MatO :=
  fun t i => if t = 0 then none else some (m t i / m (t - 1) i - 1)

/-- Embeds `df.shift(1)`: each column delayed one row, missing at the first
row. -/
def df_shift (m : MatQ) : MatO :=
  fun t i => if t = 0 then none else some (m (t - 1) i)

/-- Elementwise `df.multiply(other)` with missing values propagated. -/
def df_mul_opt (a b : MatO) : MatO :=
  fun t i =>
    match a t i, b t i with
    | some x, some y => some (x * y)
    | _, _ => none

/-- Embeds `df.fillna(v)`: replace each missing entry by `v`. -/
def df_fillna (v : ℚ) (m : MatO) : MatQ := fun t i => (m t i).getD v

/-- Embeds `df.diff(1)`: first difference of each column, missing at the
first row. -/
def df_diff (m : MatQ) : MatO :=
  fun t i => if t = 0 then none else some (m t i - m (t - 1) i)

/-- The constructor arguments of `PortfolioData`: the optional matrices are
`None` when the caller omits them.  `n_inst` is the column count of the
supplied matrices (prices is a superset of the instrument universe). -/
structure PortfolioInputData where
  nav : ℕ → ℚ
  n_inst : ℕ
  prices : Option MatQ
  weights : Option MatQ
  units : Option MatQ
  instrument_pnl : Option MatQ
  realized_costs : Option MatQ

/-- The resolved `PortfolioData` aggregate after `__post_init__`. -/
structure PortfolioData where
  n_inst : ℕ
  nav : ℕ → ℚ
  prices : MatQ
  weights : MatQ
  units : MatQ
  instrument_pnl : MatQ
  realized_costs : MatQ

/-- Embeds `PortfolioData.__post_init__`: defaulting of the omitted matrices.
`prices` defaults to `nav.to_frame()` (one column holding the nav);
`weights` and `units` default to constant `1.0` over the prices shape;
`instrument_pnl` defaults to
`prices.pct_change(fill_method=None).multiply(weights.shift(1)).fillna(0.0)`;
`realized_costs` defaults to constant `0.0`. The group / benchmark fields
are not needed by the claims about the numeric matrices and are omitted. -/
def post_init (d : PortfolioInputData) : PortfolioData :=
  let prices := d.prices.getD (fun t _ => d.nav t)
  let n_inst := if d.prices.isSome then d.n_inst else 1
  let weights := d.weights.getD (fun _ _ => 1)
  let units := d.units.getD (fun _ _ => 1)
  let instrument_pnl := d.instrument_pnl.getD
      (df_fillna 0 (df_mul_opt (df_pct_change prices) (df_shift weights)))
  let realized_costs := d.realized_costs.getD (fun _ _ => 0)
  { n_inst := n_inst, nav := d.nav, prices := prices, weights := weights,
    units := units, instrument_pnl := instrument_pnl,
    realized_costs := realized_costs }

/-- Embeds `abs_exposure = self.units.multiply(self.prices).abs().sum(axis=1)`
in `get_turnover` (gross exposure across the `n` instrument columns). -/
def abs_exposure (units prices : MatQ) (n : ℕ) : ℕ → ℚ :=
  fun t => ∑ j in Finset.range n, |units t j * prices t j|

/-- The per-instrument turnover matrix of `get_turnover`:
`(units.diff(1).abs()).multiply(prices)` divided row-wise by
`abs_exposure`; missing at the first row (where `diff` is undefined). -/
def turnover_df (prices units : MatQ) (n : ℕ) : MatO :=
  fun t i =>
    ((df_diff units) t i).map
      (fun d => |d| * prices t i / abs_exposure units prices n t)

/-- The `is_agg=True` series of `get_turnover`:
`np.nansum(turnover, axis=1)` (missing entries count as `0`). -/
def turnover_agg (prices units : MatQ) (n : ℕ) : ℕ → ℚ :=
  fun t => ∑ i in Finset.range n, ((turnover_df prices units n) t i).getD 0

/-- Embeds `series.rolling(w).sum()`: trailing-window sum, missing until a full
window of `w` rows is available. -/
def df_rolling_sum (w : ℕ) (s : ℕ → ℚ) : ℕ → Option ℚ :=
  fun t => if w ≤ t + 1 then some (∑ j in Finset.range w, s (t - j)) else none

/-- Embeds `series.resample(freq).sum()` on a series of `T` rows: the
resampling frequency assigns each row to a coarser time bucket via
`bucket`, and each bucket's values are summed. -/
def df_resample_sum (bucket : ℕ → ℕ) (T : ℕ) (s : ℕ → ℚ) : ℕ → ℚ :=
  fun b => ∑ t in (Finset.range T).filter (fun t => bucket t = b), s t

/-- Modelled from the spec: `qis.utils.df_groups.agg_df_by_groups_ax1` is not
under `src/`; per §4.2 it produces one column per group label of
`group_order`, each the (`nansum`) aggregation across that group's
instrument columns, plus, when requested, a total column equal to the
unconditional sum across all instruments. -/
def agg_df_by_groups_ax1 (n : ℕ) (m : MatO) (group_data : ℕ → String)
    (group_order : List String) (total_column : Option String) :
    List (String × (ℕ → ℚ)) :=
  (group_order.map (fun g =>
      (g, fun t => ∑ i in Finset.range n,
            if group_data i = g then (m t i).getD 0 else 0)))
    ++ (match total_column with
        | some name => [(name, fun t => ∑ i in Finset.range n, (m t i).getD 0)]
        | none => [])

/-- The shape of `get_turnover`'s result: a single aggregated series or a
frame of labeled columns. -/
inductive TurnoverOut where
  | series (name : String) (vals : ℕ → ℚ)
  | frame (cols : List (String × (ℕ → Option ℚ)))

/-- The column labels of a `get_turnover` result. -/
def turnover_columns : TurnoverOut → List String
  | .series name _ => [name]
  | .frame cols => cols.map Prod.fst

/-- Embeds `PortfolioData.get_turnover` up to the branch that fixes the output
columns: the `is_agg` series, the grouped frame taken when
`is_grouped or len(turnover.columns) > 10`, or the per-instrument frame
(with a prepended total column when `add_total`).  The trailing
`rolling`/`resample`/`time_period` steps transform values row-wise and
preserve the columns, so they are factored out (`df_rolling_sum` models the
rolling step separately). -/
def get_turnover (prices units : MatQ) (n : ℕ) (inst_names : List String)
    (group_data : ℕ → String) (group_order : List String) (nav_name : String)
    (is_agg is_grouped add_total : Bool) : TurnoverOut :=
  let turnover := turnover_df prices units n
  if is_agg then
    .series nav_name (turnover_agg prices units n)
  else if is_grouped || decide (10 < n) then
    .frame ((agg_df_by_groups_ax1 n turnover group_data group_order
        (if add_total then some nav_name else none)).map
          (fun c => (c.1, fun t => some (c.2 t))))
  else if add_total then
    .frame ((nav_name, fun t => some (turnover_agg prices units n t))
      :: inst_names.enum.map (fun p => (p.2, fun t => turnover t p.1)))
  else
    .frame (inst_names.enum.map (fun p => (p.2, fun t => turnover t p.1)))

/-- Embeds `PortfolioData.get_performance_data`: dispatch over the attribution
metric.  The Python parameter is dynamically typed, so enum members are
modelled by their string representations and the argument may hold any
other value; the three underlying getters' results enter as the parameters
`pnl_attribution`, `pnl_risk`, `inst_navs`.  The unhandled branch raises
`NotImplementedError(f"{attribution_metric}")`, i.e. an error carrying the
metric's own representation. -/
def get_performance_data {α : Type} (pnl_attribution pnl_risk inst_navs : α)
    (attribution_metric : String) : Except String α :=
  if attribution_metric = "AttributionMetric.PNL" then .ok pnl_attribution
  else if attribution_metric = "AttributionMetric.PNL_RISK" then .ok pnl_risk
  else if attribution_metric = "AttributionMetric.INST_PNL" then .ok inst_navs
  else .error attribution_metric

/-- Concrete constructor input used to exercise the defaulted
`instrument_pnl`. -/
def dW6 : PortfolioInputData :=
  { nav := fun _ => 100, n_inst := 1,
    prices := some (fun t _ => if t = 0 then 10 else 12),
    weights := some (fun _ _ => (1 : ℚ) / 2),
    units := some (fun _ _ => 1),
    instrument_pnl := none,
    realized_costs := some (fun _ _ => 0) }

/-- Concrete constructor input with `prices`, `weights` and `units` all
omitted. -/
def dW10 : PortfolioInputData :=
  { nav := fun t => (t : ℚ) + 100, n_inst := 0,
    prices := none, weights := none, units := none,
    instrument_pnl := none, realized_costs := none }

/-- Negative-price input for turnover: one instrument, price constantly
`-1`. -/
def pC7 : MatQ := fun _ _ => -1

/-- Units for the negative-price turnover input: one unit bought at step 1. -/
def uC7 : MatQ := fun t _ => if t = 0 then 0 else 1

end QIS

namespace QIS

/-- The threshold is strictly positive, so the purchase / sell bands
`(ε, ∞)` and `(-∞, -ε)` cannot overlap. -/
theorem eps_pos : 0 < eps := by norm_num [eps]

/-- C1: for every step `t+1` and instrument series, with
`delta = units[t+1] - units[t]`: if `delta < -1e-16` then
`realized_pnl[t+1] = -delta * (prices[t+1] - avg_cost[t])`, otherwise
`realized_pnl[t+1] = 0`; and the purchase and sell classifications are
mutually exclusive. -/
theorem realized_pnl_sell_rule (p u : ℕ → ℚ) (t : ℕ) :
    (u (t + 1) - u t < -eps →
      realized_pnl p u (t + 1)
        = -(u (t + 1) - u t) * (p (t + 1) - avg_costs p u t)) ∧
    (¬ (u (t + 1) - u t < -eps) → realized_pnl p u (t + 1) = 0) ∧
    ¬ (is_purchase (u (t + 1) - u t) = true ∧ is_sell (u (t + 1) - u t) = true) := by
  refine ⟨fun h => ?_, fun h => ?_, fun ⟨hp, hs⟩ => ?_⟩
  · simp [realized_pnl, is_sell, h]
  · simp [realized_pnl, is_sell, h]
  · simp only [is_purchase, is_sell, decide_eq_true_eq] at hp hs
    have := eps_pos
    linarith

/-- C2: for every step `t+1`, with `delta = units[t+1] - units[t]`:
if `delta > 1e-16` then
`avg_cost[t+1] = (delta * prices[t+1] + units[t] * avg_cost[t]) / units[t+1]`,
otherwise `avg_cost[t+1] = avg_cost[t]` (carried forward unchanged,
including when `units[t+1] = 0`). -/
theorem avg_costs_purchase_rule (p u : ℕ → ℚ) (t : ℕ) :
    (eps < u (t + 1) - u t →
      avg_costs p u (t + 1)
        = ((u (t + 1) - u t) * p (t + 1) + u t * avg_costs p u t) / u (t + 1)) ∧
    (¬ (eps < u (t + 1) - u t) → avg_costs p u (t + 1) = avg_costs p u t) := by
  constructor
  · intro h
    simp [avg_costs, is_purchase, h]
  · intro h
    simp [avg_costs, is_purchase, h]

/-- C5: at `t = 0`, `avg_cost[0] = prices[0]` when `units[0] > 1e-16` and
`0` otherwise, and `realized_pnl[0] = mtm_pnl[0] = trades[0] = 0`. -/
theorem initial_step_rule (p u : ℕ → ℚ) :
    (eps < u 0 → avg_costs p u 0 = p 0) ∧
    (¬ (eps < u 0) → avg_costs p u 0 = 0) ∧
    realized_pnl p u 0 = 0 ∧ mtm_pnl p u 0 = 0 ∧ trades u 0 = 0 := by
  refine ⟨fun h => ?_, fun h => ?_, rfl, rfl, rfl⟩
  · simp [avg_costs, is_purchase, h]
  · simp [avg_costs, is_purchase, h]

/-- C4: under a long-only input (`units[t] ≥ 0`), whenever the purchase
branch of `compute_realized_pnl` is taken the divisor `units[t+1]` is
strictly positive, so the average-cost division never divides by zero;
and when `units[t+1] = 0` the division branch is skipped and the cost
is carried forward. -/
theorem avg_costs_division_safe (p u : ℕ → ℚ) (t : ℕ) (hu : 0 ≤ u t) :
    (is_purchase (u (t + 1) - u t) = true → 0 < u (t + 1)) ∧
    (u (t + 1) = 0 → avg_costs p u (t + 1) = avg_costs p u t) := by
  constructor
  · intro h
    simp only [is_purchase, decide_eq_true_eq] at h
    have := eps_pos
    linarith
  · intro h0
    have hnp : ¬ (eps < u (t + 1) - u t) := by
      have := eps_pos
      rw [h0]
      intro hlt
      linarith
    simp [avg_costs, is_purchase, hnp]

/-- Witness for `realized_pnl_sell_rule`: an input with a sell of 2 units at
step 1, where the sell hypothesis is discharged concretely. -/
theorem realized_pnl_sell_rule_witness :
    ((fun t : ℕ => if t = 0 then (5 : ℚ) else 3) 1
        - (fun t : ℕ => if t = 0 then (5 : ℚ) else 3) 0 < -eps) ∧
    realized_pnl (fun t => if t = 0 then 10 else 12) (fun t => if t = 0 then 5 else 3) 1
      = -((fun t : ℕ => if t = 0 then (5 : ℚ) else 3) 1
            - (fun t : ℕ => if t = 0 then (5 : ℚ) else 3) 0)
          * ((fun t : ℕ => if t = 0 then (10 : ℚ) else 12) 1
              - avg_costs (fun t => if t = 0 then 10 else 12)
                  (fun t => if t = 0 then 5 else 3) 0) :=
  ⟨by norm_num [eps],
   (realized_pnl_sell_rule (fun t => if t = 0 then 10 else 12)
      (fun t => if t = 0 then 5 else 3) 0).1 (by norm_num [eps])⟩

/-- Witness for `avg_costs_purchase_rule`: an input with a purchase of 2 units
at step 1, where the purchase hypothesis is discharged concretely. -/
theorem avg_costs_purchase_rule_witness :
    (eps < (fun t : ℕ => if t = 0 then (3 : ℚ) else 5) 1
        - (fun t : ℕ => if t = 0 then (3 : ℚ) else 5) 0) ∧
    avg_costs (fun t => if t = 0 then 10 else 12) (fun t => if t = 0 then 3 else 5) 1
      = (((fun t : ℕ => if t = 0 then (3 : ℚ) else 5) 1
            - (fun t : ℕ => if t = 0 then (3 : ℚ) else 5) 0)
            * (fun t : ℕ => if t = 0 then (10 : ℚ) else 12) 1
          + (fun t : ℕ => if t = 0 then (3 : ℚ) else 5) 0
            * avg_costs (fun t => if t = 0 then 10 else 12)
                (fun t => if t = 0 then 3 else 5) 0)
        / (fun t : ℕ => if t = 0 then (3 : ℚ) else 5) 1 :=
  ⟨by norm_num [eps],
   (avg_costs_purchase_rule (fun t => if t = 0 then 10 else 12)
      (fun t => if t = 0 then 3 else 5) 0).1 (by norm_num [eps])⟩

/-- Witness for `initial_step_rule`: at `units[0] = 5 > ε`, the initial average
cost equals the initial price, discharging the threshold hypothesis concretely. -/
theorem initial_step_rule_witness :
    (eps < (fun _ : ℕ => (5 : ℚ)) 0) ∧
    avg_costs (fun _ => 7) (fun _ => 5) 0 = (fun _ : ℕ => (7 : ℚ)) 0 :=
  ⟨by norm_num [eps],
   (initial_step_rule (fun _ => 7) (fun _ => 5)).1 (by norm_num [eps])⟩

/-- Witness for `avg_costs_division_safe` at a concrete long-only input. -/
theorem avg_costs_division_safe_witness :
    (0 : ℚ) ≤ (fun _ : ℕ => (2 : ℚ)) 0 ∧
    ((is_purchase ((fun _ : ℕ => (2 : ℚ)) 1 - (fun _ : ℕ => (2 : ℚ)) 0) = true →
        0 < (fun _ : ℕ => (2 : ℚ)) 1) ∧
      ((fun _ : ℕ => (2 : ℚ)) 1 = 0 →
        avg_costs (fun _ => 3) (fun _ => 2) 1 = avg_costs (fun _ => 3) (fun _ => 2) 0)) :=
  ⟨by norm_num, avg_costs_division_safe (fun _ => 3) (fun _ => 2) 0 (by norm_num)⟩

/-- Conservation of value along the recurrence: for a position opened from
zero units, with every trade delta either exactly zero or beyond the noise
threshold, the cumulative realized P&L equals the net cash proceeds of all
trades plus the capital still tied up at average cost. -/
theorem cum_realized_invariant (p u : ℕ → ℚ) (hu0 : u 0 = 0)
    (hpos : ∀ t, 0 ≤ u t)
    (hcl : ∀ t, trade_classified (u (t + 1) - u t)) :
    ∀ T, (∑ t in Finset.range (T + 1), realized_pnl p u t)
      = (∑ t in Finset.range (T + 1), -(trades u t) * p t)
          + u T * avg_costs p u T := by
  intro T
  induction T with
  | zero => simp [realized_pnl, trades, hu0]
  | succ T ih =>
      rw [Finset.sum_range_succ, Finset.sum_range_succ
            (f := fun t => -(trades u t) * p t), ih]
      have hT := hpos T
      have he := eps_pos
      rcases hcl T with h0 | hpur | hsell
      · have hu : u (T + 1) = u T := by linarith
        have hns : ¬ (u (T + 1) - u T < -eps) := by rw [h0]; linarith
        have hnp : ¬ (eps < u (T + 1) - u T) := by rw [h0]; linarith
        have h1 : realized_pnl p u (T + 1) = 0 := by
          simp [realized_pnl, is_sell, hns]
        have h2 : avg_costs p u (T + 1) = avg_costs p u T := by
          simp [avg_costs, is_purchase, hnp]
        have h3 : trades u (T + 1) = 0 := by simp [trades, h0]
        rw [h1, h2, h3, hu]; ring
      · have hns : ¬ (u (T + 1) - u T < -eps) := by linarith
        have hu1 : u (T + 1) ≠ 0 := by
          have : 0 < u (T + 1) := by linarith
          exact ne_of_gt this
        have h1 : realized_pnl p u (T + 1) = 0 := by
          simp [realized_pnl, is_sell, hns]
        have h2 : avg_costs p u (T + 1)
            = ((u (T + 1) - u T) * p (T + 1) + u T * avg_costs p u T)
                / u (T + 1) := by
          simp [avg_costs, is_purchase, hpur]
        have h3 : trades u (T + 1) = u (T + 1) - u T := by simp [trades]
        rw [h1, h2, h3]
        field_simp
        ring
      · have hnp : ¬ (eps < u (T + 1) - u T) := by linarith
        have h1 : realized_pnl p u (T + 1)
            = -(u (T + 1) - u T) * (p (T + 1) - avg_costs p u T) := by
          simp [realized_pnl, is_sell, hsell]
        have h2 : avg_costs p u (T + 1) = avg_costs p u T := by
          simp [avg_costs, is_purchase, hnp]
        have h3 : trades u (T + 1) = u (T + 1) - u T := by simp [trades]
        rw [h1, h2, h3]; ring

/-- At a step where the position is fully closed, the mark-to-market P&L
vanishes: the final sell realizes exactly the carried unrealized gain. -/
theorem mtm_zero_when_closed (p u : ℕ → ℚ) (T : ℕ) (hpos : ∀ t, 0 ≤ u t)
    (hcl : ∀ t, trade_classified (u (t + 1) - u t)) (hT : u T = 0) :
    mtm_pnl p u T = 0 := by
  cases T with
  | zero => rfl
  | succ S =>
      have hS := hpos S
      have he := eps_pos
      rcases hcl S with h0 | hpur | hsell
      · have huS : u S = 0 := by linarith
        have hns : ¬ (u (S + 1) - u S < -eps) := by rw [hT, huS]; linarith
        have h1 : realized_pnl p u (S + 1) = 0 := by
          simp [realized_pnl, is_sell, hns]
        simp [mtm_pnl, h1, huS]
      · exact absurd hpur (by rw [hT]; linarith)
      · have h1 : realized_pnl p u (S + 1)
            = -(u (S + 1) - u S) * (p (S + 1) - avg_costs p u S) := by
          simp [realized_pnl, is_sell, hsell]
        simp only [mtm_pnl, h1, hT]
        ring

/-- C3 (amended): for every single-instrument input opened from zero units,
long-only, with each trade delta either exactly zero or beyond the `1e-16`
threshold, and fully closed at the final step, the cumulative sum over time
of `realized_pnl` plus `mtm_pnl` at the final step equals the position's
total gain (sale proceeds minus purchase cost, `Σ_t -trade_delta[t] *
prices[t]`); and `realized_pnl` at each sell step equals
`-delta * (prices[t] - avg_cost[t-1])`.  (The raw sum over time of
`realized_pnl[t] + mtm_pnl[t]` does not reproduce the total gain.) -/
theorem closed_position_total_pnl (p u : ℕ → ℚ) (T : ℕ)
    (hu0 : u 0 = 0) (hpos : ∀ t, 0 ≤ u t)
    (hcl : ∀ t, trade_classified (u (t + 1) - u t)) (hT : u T = 0) :
    ((∑ t in Finset.range (T + 1), realized_pnl p u t) + mtm_pnl p u T
      = ∑ t in Finset.range (T + 1), -(trades u t) * p t) ∧
    ∀ t, u (t + 1) - u t < -eps →
      realized_pnl p u (t + 1)
        = -(u (t + 1) - u t) * (p (t + 1) - avg_costs p u t) := by
  constructor
  · rw [mtm_zero_when_closed p u T hpos hcl hT,
        cum_realized_invariant p u hu0 hpos hcl T, hT]
    ring
  · intro t ht
    simp [realized_pnl, is_sell, ht]

/-- C3, as stated, is false on the spec's own scenario
`units = [0,10,10,5,0]`, `prices = [10,10,12,12,15]`: the sum over all time
steps of `realized_pnl[t] + mtm_pnl[t]` is `65`, while the position's total
gain is `35` (and the naive price move on the full lot, `10 * (15 - 10)`,
is `50`); `65` equals neither. -/
theorem sum_realized_mtm_counterexample :
    (∑ t in Finset.range 5, (realized_pnl pC3 uC3 t + mtm_pnl pC3 uC3 t))
        = 65 ∧
    (∑ t in Finset.range 5, -(trades uC3 t) * pC3 t) = 35 ∧
    uC3 1 * (pC3 4 - pC3 1) = 50 ∧
    (65 : ℚ) ≠ 35 ∧ (65 : ℚ) ≠ 50 := by
  refine ⟨?_, ?_, by norm_num [uC3, pC3], by norm_num, by norm_num⟩
  · norm_num [Finset.sum_range_succ, realized_pnl, mtm_pnl, avg_costs, trades,
      is_sell, is_purchase, uC3, pC3, eps]
  · norm_num [Finset.sum_range_succ, trades, uC3, pC3]

/-- Witness for `closed_position_total_pnl` on the spec's scenario, with all
hypotheses discharged concretely. -/
theorem closed_position_total_pnl_witness :
    (∑ t in Finset.range 5, realized_pnl pC3 uC3 t) + mtm_pnl pC3 uC3 4
      = ∑ t in Finset.range 5, -(trades uC3 t) * pC3 t :=
  (closed_position_total_pnl pC3 uC3 4 rfl
    (by intro t; rcases t with _ | _ | _ | _ | t <;> norm_num [uC3])
    (by intro t; rcases t with _ | _ | _ | _ | t <;>
          norm_num [trade_classified, uC3, eps])
    rfl).1

/-- C6: when `PortfolioData` is constructed without an explicit
`instrument_pnl`, `__post_init__` derives it as the per-period percentage
price change multiplied elementwise by the weight observed one period
earlier (weights shifted by one, no look-ahead), with missing values
replaced by zero. -/
theorem instrument_pnl_default (d : PortfolioInputData)
    (h : d.instrument_pnl = none) (t i : ℕ) :
    (post_init d).instrument_pnl t i
      = if t = 0 then 0
        else ((post_init d).prices t i / (post_init d).prices (t - 1) i - 1)
              * (post_init d).weights (t - 1) i := by
  cases t with
  | zero => simp [post_init, h, df_fillna, df_mul_opt, df_pct_change, df_shift]
  | succ t => simp [post_init, h, df_fillna, df_mul_opt, df_pct_change, df_shift]

/-- Witness for `instrument_pnl_default` at a concrete constructor input with
`instrument_pnl` omitted. -/
theorem instrument_pnl_default_witness :
    dW6.instrument_pnl = none ∧
    (post_init dW6).instrument_pnl 1 0
      = if (1 : ℕ) = 0 then 0
        else ((post_init dW6).prices 1 0 / (post_init dW6).prices 0 0 - 1)
              * (post_init dW6).weights 0 0 :=
  ⟨rfl, instrument_pnl_default dW6 rfl 1 0⟩

/-- C10: when `prices`, `weights` or `units` are omitted (`None`),
`__post_init__` resolves them without failure: `prices` becomes the nav
series as a single-column matrix, and `weights` and `units` become constant
`1.0` matrices over the prices shape (a delta-1 portfolio of nav). -/
theorem post_init_defaults (d : PortfolioInputData)
    (hp : d.prices = none) (hw : d.weights = none) (hu : d.units = none) :
    (post_init d).n_inst = 1 ∧
    (∀ t i, (post_init d).prices t i = d.nav t) ∧
    (∀ t i, (post_init d).weights t i = 1) ∧
    (∀ t i, (post_init d).units t i = 1) := by
  refine ⟨?_, ?_, ?_, ?_⟩ <;> simp [post_init, hp, hw, hu]

/-- Witness for `post_init_defaults` at a concrete constructor input with
all three matrices omitted. -/
theorem post_init_defaults_witness :
    (post_init dW10).n_inst = 1 ∧
    (post_init dW10).prices 3 0 = dW10.nav 3 ∧
    (post_init dW10).weights 3 0 = 1 ∧
    (post_init dW10).units 3 0 = 1 :=
  ⟨(post_init_defaults dW10 rfl rfl rfl).1,
   (post_init_defaults dW10 rfl rfl rfl).2.1 3 0,
   (post_init_defaults dW10 rfl rfl rfl).2.2.1 3 0,
   (post_init_defaults dW10 rfl rfl rfl).2.2.2 3 0⟩

/-- C7 (amended): for every input with non-negative prices, the turnover of
`get_turnover` is non-negative wherever it is defined: every defined entry
of the per-instrument turnover matrix, the aggregated series, every defined
entry of its trailing rolling sum, and every entry of its resampling to a
coarser frequency by summation.  (For a negative price the code produces a
negative turnover, so the restriction to non-negative prices is
necessary.) -/
theorem get_turnover_nonneg (prices units : MatQ) (n : ℕ)
    (hp : ∀ t i, 0 ≤ prices t i) :
    (∀ t i x, turnover_df prices units n t i = some x → 0 ≤ x) ∧
    (∀ t, 0 ≤ turnover_agg prices units n t) ∧
    (∀ w t x, df_rolling_sum w (turnover_agg prices units n) t = some x
        → 0 ≤ x) ∧
    (∀ bucket T b,
        0 ≤ df_resample_sum bucket T (turnover_agg prices units n) b) := by
  have key : ∀ t i x, turnover_df prices units n t i = some x → 0 ≤ x := by
    intro t i x hx
    cases t with
    | zero => simp [turnover_df, df_diff] at hx
    | succ t =>
        simp [turnover_df, df_diff] at hx
        subst hx
        exact div_nonneg (mul_nonneg (abs_nonneg _) (hp _ _))
          (Finset.sum_nonneg fun j _ => abs_nonneg _)
  have key2 : ∀ t, 0 ≤ turnover_agg prices units n t := by
    intro t
    refine Finset.sum_nonneg fun i _ => ?_
    cases hx : turnover_df prices units n t i with
    | none => simp [hx]
    | some x => simpa [hx] using key t i x hx
  refine ⟨key, key2, fun w t x hx => ?_, fun bucket T b => ?_⟩
  · simp only [df_rolling_sum] at hx
    by_cases hw : w ≤ t + 1
    · rw [if_pos hw, Option.some.injEq] at hx
      rw [← hx]
      exact Finset.sum_nonneg fun j _ => key2 _
    · rw [if_neg hw] at hx
      exact absurd hx (Option.noConfusion)
  · exact Finset.sum_nonneg fun t _ => key2 t

/-- Witness for `get_turnover_nonneg` at a concrete non-negative-price
input. -/
theorem get_turnover_nonneg_witness :
    0 ≤ turnover_agg (fun _ _ => 1) (fun t _ => (t : ℚ)) 1 1 :=
  (get_turnover_nonneg (fun _ _ => 1) (fun t _ => (t : ℚ)) 1
    (fun _ _ => by norm_num)).2.1 1

/-- C7, as universally stated over all inputs, is false: with one
instrument at constant price `-1` and one unit bought at step 1, the
per-instrument turnover entry at step 1 is defined and equals `-1 < 0`, and
the aggregated turnover series is `-1 < 0` there as well. -/
theorem turnover_negative_counterexample :
    turnover_df pC7 uC7 1 1 0 = some (-1) ∧
    turnover_agg pC7 uC7 1 1 = -1 ∧ ((-1 : ℚ) < 0) := by
  refine ⟨?_, ?_, by norm_num⟩
  · norm_num [turnover_df, df_diff, abs_exposure, Finset.sum_range_one,
      pC7, uC7]
  · norm_num [turnover_agg, turnover_df, df_diff, abs_exposure,
      Finset.sum_range_one, pC7, uC7]

/-- C8: `get_performance_data` returns the attribution, risk-attribution or
instrument-nav data for the three handled metrics without raising, and for
any other metric value raises `NotImplementedError` carrying the unhandled
case's own representation. -/
theorem get_performance_data_dispatch {α : Type}
    (pnl_attribution pnl_risk inst_navs : α) (m : String)
    (hm : m ≠ "AttributionMetric.PNL" ∧ m ≠ "AttributionMetric.PNL_RISK" ∧
          m ≠ "AttributionMetric.INST_PNL") :
    get_performance_data pnl_attribution pnl_risk inst_navs m = .error m ∧
    get_performance_data pnl_attribution pnl_risk inst_navs
        ("AttributionMetric.PNL") = .ok pnl_attribution ∧
    get_performance_data pnl_attribution pnl_risk inst_navs
        ("AttributionMetric.PNL_RISK") = .ok pnl_risk ∧
    get_performance_data pnl_attribution pnl_risk inst_navs
        ("AttributionMetric.INST_PNL") = .ok inst_navs := by
  obtain ⟨h1, h2, h3⟩ := hm
  refine ⟨?_, ?_, ?_, ?_⟩ <;> simp [get_performance_data, h1, h2, h3]

/-- Witness for `get_performance_data_dispatch` at a concrete unhandled
metric value. -/
theorem get_performance_data_dispatch_witness :
    get_performance_data (0 : ℚ) 1 2 ("AttributionMetric.OTHER")
      = .error ("AttributionMetric.OTHER") :=
  (get_performance_data_dispatch (0 : ℚ) 1 2 ("AttributionMetric.OTHER")
    ⟨by simp, by simp, by simp⟩).1

/-- C9: with strictly more than 10 instrument columns, `get_turnover` called
with `is_agg = False` and `is_grouped = False` nevertheless returns the
group-aggregated frame, whose columns are the group labels (plus the total
column when requested) rather than the instruments; the per-instrument
columns are returned only when there are at most 10 instruments. -/
theorem get_turnover_grouping_threshold (prices units : MatQ) (n : ℕ)
    (inst_names : List String) (group_data : ℕ → String)
    (group_order : List String) (nav_name : String) (add_total : Bool) :
    (10 < n →
      turnover_columns (get_turnover prices units n inst_names group_data
          group_order nav_name false false add_total)
        = group_order ++ (if add_total then [nav_name] else [])) ∧
    (n ≤ 10 →
      turnover_columns (get_turnover prices units n inst_names group_data
          group_order nav_name false false add_total)
        = if add_total then nav_name :: inst_names else inst_names) := by
  constructor
  · intro h
    cases add_total <;>
      (simp [get_turnover, turnover_columns, h, agg_df_by_groups_ax1,
          List.map_append];
       exact List.map_id' group_order)
  · intro h
    have hn : ¬ (10 < n) := not_lt.mpr h
    cases add_total <;>
      (simp [get_turnover, turnover_columns, hn];
       exact List.enum_map_snd inst_names)

/-- Witness for `get_turnover_grouping_threshold`: with 11 instruments the
columns are the group labels plus the total, with 2 instruments they are
the total followed by the instruments. -/
theorem get_turnover_grouping_threshold_witness :
    turnover_columns (get_turnover (fun _ _ => 1) (fun _ _ => 1) 11 []
        (fun _ => "G") ["G"] "Portfolio" false false true)
      = ["G", "Portfolio"] ∧
    turnover_columns (get_turnover (fun _ _ => 1) (fun _ _ => 1) 2
        ["A", "B"] (fun _ => "G") ["G"] "Portfolio" false false true)
      = ["Portfolio", "A", "B"] :=
  ⟨(get_turnover_grouping_threshold (fun _ _ => 1) (fun _ _ => 1) 11 []
      (fun _ => "G") ["G"] "Portfolio" true).1 (by norm_num),
   (get_turnover_grouping_threshold (fun _ _ => 1) (fun _ _ => 1) 2
      ["A", "B"] (fun _ => "G") ["G"] "Portfolio" true).2 (by norm_num)⟩

end QIS
